import Mathlib

/-!
Verification of the QuantumDrift NP solver engine (src/src/solver.js).

The JavaScript engine is shallowly embedded: JS numbers are modelled as
rationals, and a JS value that may be NaN (for example the result of an
out-of-bounds array read propagated through arithmetic) is modelled as
an optional rational, with none standing for NaN.  Transcendental
library primitives (Math.sin, Math.log, Math.log10, Math.sqrt) are
threaded through as explicit function parameters, since only the data
flow around them is relevant to the properties checked here.
-/

/-- Rational model of a JS number that may be NaN: none is NaN. -/
abbrev JsNum := Option ℚ

/-- JS addition: NaN absorbs. -/
def jsAdd (a b : JsNum) : JsNum :=
  match a, b with
  | some x, some y => some (x + y)
  | _, _ => none

/-- JS subtraction: NaN absorbs. -/
def jsSub (a b : JsNum) : JsNum :=
  match a, b with
  | some x, some y => some (x - y)
  | _, _ => none

/-- JS multiplication: NaN absorbs. -/
def jsMul (a b : JsNum) : JsNum :=
  match a, b with
  | some x, some y => some (x * y)
  | _, _ => none

/-- JS division, used only under a nonzero-denominator guard in the
source: NaN absorbs. -/
def jsDiv (a b : JsNum) : JsNum :=
  match a, b with
  | some x, some y => some (x / y)
  | _, _ => none

/-- JS strict less-than: any comparison involving NaN is false. -/
def jsLt (a b : JsNum) : Bool :=
  match a, b with
  | some x, some y => decide (x < y)
  | _, _ => false

/-- JS Math.min on two values: NaN absorbs. -/
def jsMin2 (a b : JsNum) : JsNum :=
  match a, b with
  | some x, some y => some (min x y)
  | _, _ => none

/-- JS Math.max on two values: NaN absorbs. -/
def jsMax2 (a b : JsNum) : JsNum :=
  match a, b with
  | some x, some y => some (max x y)
  | _, _ => none

/-- JS Math.abs lifted to possibly-NaN values. -/
def jsAbsJ (a : JsNum) : JsNum := a.map (fun x => |x|)

/-- Truncation toward zero, the rounding JS uses for the % operator:
the floor for nonnegative inputs, the negated floor of the negation
otherwise. -/
def jsTrunc (q : ℚ) : ℤ := if 0 ≤ q then q.floor else -((-q).floor)

/-- JS x % 1 on a number: x minus its truncation toward zero. -/
def jsMod1 (q : ℚ) : ℚ := q - (jsTrunc q : ℚ)

/-- JS x % 1 lifted to possibly-NaN values. -/
def jsMod1J (a : JsNum) : JsNum := a.map jsMod1

/-- Clamp to the unit interval, as Math.max(0, Math.min(1, x)): NaN
passes through both min and max unchanged. -/
def jsClamp01 (a : JsNum) : JsNum := jsMax2 (some 0) (jsMin2 (some 1) a)

/-- JS strict equality on possibly-NaN numbers: NaN compares unequal to
everything, including itself. -/
def jsStrictEq (a b : JsNum) : Bool :=
  match a, b with
  | some x, some y => x == y
  | _, _ => false

/-- JS Array.prototype.indexOf with strict-equality matching, returning
-1 when no element matches (in particular whenever the needle is NaN). -/
def jsIndexOf (l : List JsNum) (x : JsNum) : ℤ :=
  match l.findIdx? (fun y => jsStrictEq y x) with
  | some k => (k : ℤ)
  | none => -1

/-- JS Math.min spread over a nonempty argument list: NaN absorbs.  The
engine only evaluates it on nonempty lists; the empty case (Infinity in
JS) is mapped to NaN here and is never relied upon. -/
def jsMinList (l : List JsNum) : JsNum :=
  match l with
  | [] => none
  | h :: t => t.foldl jsMin2 h

/-- JS parseInt restricted to the digit strings the engine feeds it: the
value of the leading digit run, NaN (none) when the string does not
start with a digit. -/
def jsParseInt (s : String) : Option ℤ :=
  let ds := s.toList.takeWhile Char.isDigit
  if ds.isEmpty then none
  else some (ds.foldl (fun acc c => acc * 10 + ((c.toNat : ℤ) - ('0'.toNat : ℤ))) 0)

/-- The engine constant PHI, the float literal 1.618033988749895. -/
def PHI : ℚ := 1618033988749895 / 1000000000000000

/-- The engine constant DIMENSIONS. -/
def DIMENSIONS : ℕ := 11

/-- Per-dimension body of the source function pushToTickStack: append
the value, then drop the oldest entry if the window exceeds 100. -/
def pushTick (s : List JsNum) (v : JsNum) : List JsNum :=
  let s2 := s ++ [v]
  if s2.length > 100 then s2.tail else s2

/-- Source function pushToTickStack: push entry i of the vector onto
window i, for every index present in both the stack and the vector. -/
def pushToTickStack : List (List JsNum) → List JsNum → List (List JsNum)
  | [], _ => []
  | s :: ss, [] => s :: ss
  | s :: ss, v :: vs => pushTick s v :: pushToTickStack ss vs

/-- Ranked projection: coordinate list and scalar value, either of which
may be NaN when the correlation pattern supplied fewer dimension pairs
than a strategy reads. -/
structure Projection where
  coordinates : List JsNum
  value : JsNum
  deriving Repr, DecidableEq

/-- Read coordinate k of a projection, JS-style: an out-of-bounds read
yields undefined which behaves as NaN in arithmetic. -/
def coordAt (p : Projection) (k : ℕ) : JsNum := (p.coordinates.get? k).join

/-- Sum over the selected entries, mirroring the accumulation loop shared
by calculateSubsetSumDiff and refineSubsetSum: index i contributes
numbers[i] exactly when subset[i] is true (a missing entry is falsy). -/
def selectedSum (numbers : List ℚ) (subset : List Bool) : ℚ :=
  (List.range numbers.length).foldl
    (fun acc i => if subset.getD i false then acc + numbers.getD i 0 else acc) 0

/-- Source function calculateSubsetSumDiff: absolute distance between
the selected sum and the target. -/
def calculateSubsetSumDiff (numbers : List ℚ) (target : ℚ) (subset : List Bool) : ℚ :=
  |selectedSum numbers subset - target|

/-- JS assignment subset[i] = !subset[i] on a copied array: in bounds it
flips the entry; past the end it extends the array, the new slot getting
true (negation of undefined) and the holes reading back as falsy. -/
def jsFlipAt (s : List Bool) (i : ℕ) : List Bool :=
  if i < s.length then s.set i (!(s.getD i false))
  else s ++ List.replicate (i - s.length) false ++ [true]

/-- Result record of the subset-sum strategy. -/
structure SubsetSolution where
  subset : List ℕ
  sum : ℚ
  target : ℚ
  difference : ℚ
  deriving Repr, DecidableEq

/-- Source function refineSubsetSum: starting from the initial subset,
try flipping each index in order and keep a flip exactly when it
strictly reduces the distance to the target; finally rebuild the sum and
the selected index list from the winning subset.  The projections
argument is accepted but unused, as in the source. -/
def refineSubsetSum (_projections : List Projection) (numbers : List ℚ) (target : ℚ)
    (initialSubset : List Bool) : SubsetSolution :=
  let n := numbers.length
  let best0 := (initialSubset, calculateSubsetSumDiff numbers target initialSubset)
  let best := (List.range n).foldl
    (fun (best : List Bool × ℚ) i =>
      let testSubset := jsFlipAt best.1 i
      let diff := calculateSubsetSumDiff numbers target testSubset
      if diff < best.2 then (testSubset, diff) else best) best0
  let sum := selectedSum numbers best.1
  let selectedIndices := (List.range n).filter (fun i => best.1.getD i false)
  ⟨selectedIndices, sum, target, |sum - target|⟩

/-- Per-dimension constraint, as accepted by applyConstraint: an affine
min..max range, or a discrete rule quantizing into an option array or
into a count of buckets. -/
inductive Constraint where
  | range (min max : ℚ)
  | discreteOptions (opts : List ℚ)
  | discreteCount (count : ℚ)
  deriving Repr, DecidableEq

/-- Problem instance as consumed by the engine: kind tag, size, the
optional dimensions field (none when absent), and the optional
per-dimension constraint list (empty when absent). -/
structure Problem where
  type : String
  size : ℕ
  dimensions : Option ℤ
  constraints : List (Option Constraint)
  deriving Repr, DecidableEq

/-- JS expression problem.dimensions or DIMENSIONS: an absent field and
the falsy value 0 both fall back to the default 11; any other value
(including a negative one) is kept. -/
def resolveDims (d : Option ℤ) : ℤ :=
  match d with
  | none => 11
  | some d => if d = 0 then 11 else d

/-- Source function generateProblemKey: the template literal joining
problem type, size and resolved dimension count with hyphens. -/
def generateProblemKey (p : Problem) : String :=
  p.type ++ "-" ++ toString p.size ++ "-" ++ toString (resolveDims p.dimensions)

/-- Source function applyConstraint on a numeric input value.  The
discrete option-array branch indexes the array at floor(value * length),
an out-of-bounds read giving undefined, which a Float64Array store turns
into NaN. -/
def applyConstraint (value : ℚ) (c : Constraint) : JsNum :=
  match c with
  | .range mn mx => some (mn + value * (mx - mn))
  | .discreteOptions opts =>
      let idx := ⌊value * (opts.length : ℚ)⌋
      if 0 ≤ idx then opts.get? idx.toNat else none
  | .discreteCount count => some ((⌊value * count⌋ : ℤ) : ℚ)

/-- Constraint lookup problem.constraints[i], skipped when the list is
absent or the slot is empty. -/
def constraintAt (p : Problem) (i : ℕ) : Option Constraint :=
  (p.constraints.get? i).join

/-- Source function generateSolutionVector: allocating the Float64Array
throws a RangeError when the resolved dimension count is negative
(while a count of 0 has already fallen back to 11); otherwise each
dimension receives a golden-ratio phase value, remapped by the matching
constraint when one is present. -/
def generateSolutionVector (p : Problem) (seed : ℕ) : Except String (List JsNum) :=
  let dims := resolveDims p.dimensions
  if dims < 0 then .error "RangeError"
  else
    let phaseFactor := jsMod1 ((seed : ℚ) * PHI)
    .ok ((List.range dims.toNat).map (fun (i : ℕ) =>
      let phase := jsMod1 (((i : ℚ) + 1) * phaseFactor * PHI)
      match constraintAt p i with
      | none => some phase
      | some c => applyConstraint phase c))

/-- Sequential generation of the initial solution vectors: the loop in
initializeSolutionSpace stops at the first thrown RangeError. -/
def generateVectors (p : Problem) : List ℕ → Except String (List (List JsNum))
  | [] => .ok []
  | i :: is =>
    match generateSolutionVector p i with
    | .error e => .error e
    | .ok v =>
      match generateVectors p is with
      | .error e => .error e
      | .ok vs => .ok (v :: vs)

/-- Source function initializeSolutionSpace, vector part: the vector
count is ceil(log2(size) * PHI), with Math.log2 supplied as an explicit
primitive; each seed index in order produces one solution vector. -/
def initializeSolutionSpace (jsLog2 : ℚ → ℚ) (p : Problem) : Except String (List (List JsNum)) :=
  let vectorCount := (⌈jsLog2 (p.size : ℚ) * PHI⌉ : ℤ).toNat
  generateVectors p (List.range vectorCount)

/-- JS Math.round: round half toward positive infinity. -/
def jsRound (q : ℚ) : ℤ := (q + 1/2).floor

/-- Source function getMeasuredComplexity: the elapsed time is first
normalized by 10, then divided by size times the natural log of size;
Math.log is supplied as an explicit primitive. -/
def getMeasuredComplexity (jsLog : ℚ → ℚ) (size time : ℚ) : ℚ :=
  let normalizedTime := time / 10
  normalizedTime / (size * jsLog size)

/-- Source function getPolynomialDegree: log(time/10) divided by
log(size), rounded to 2 decimal places. -/
def getPolynomialDegree (jsLog : ℚ → ℚ) (size time : ℚ) : ℚ :=
  let normalizedTime := time / 10
  let logTime := jsLog normalizedTime
  let logSize := jsLog size
  let degree := logTime / logSize
  ((jsRound (degree * 100) : ℤ) : ℚ) / 100

/-- Measured complexity as the spec words state it: elapsedTime divided
by size times the natural log of size, with no normalization by 10. -/
def specMeasuredComplexity (jsLog : ℚ → ℚ) (size time : ℚ) : ℚ :=
  time / (size * jsLog size)

/-- Polynomial-degree estimate as the spec words state it:
log(elapsedTime/10) divided by log(size), rounded to 2 decimal places. -/
def specPolynomialDegree (jsLog : ℚ → ℚ) (size time : ℚ) : ℚ :=
  ((jsRound ((jsLog (time / 10) / jsLog size) * 100) : ℤ) : ℚ) / 100

/-- Source function getTheoreticalComplexity: the label reported per
problem kind. -/
def getTheoreticalComplexity (problemType : String) : String :=
  if problemType == "tsp" then "O(n!)"
  else if problemType == "graph-coloring" then "O(k^n)"
  else if problemType == "sat" then "O(2^n)"
  else if problemType == "subset-sum" then "O(2^n)"
  else "Unknown"

/-- Metrics record assembled by calculateComplexityMetrics. -/
structure ComplexityMetrics where
  theoreticalComplexity : String
  measuredComplexity : ℚ
  timeComplexity : String
  deriving Repr, DecidableEq

/-- Source function calculateComplexityMetrics. -/
def calculateComplexityMetrics (jsLog : ℚ → ℚ) (problemType : String) (size time : ℚ) :
    ComplexityMetrics :=
  ⟨getTheoreticalComplexity problemType,
   getMeasuredComplexity jsLog size time,
   "O(n^" ++ toString (getPolynomialDegree jsLog size time) ++ ")"⟩

/-- Result record returned by solve, generic in the kind-specific
solution payload. -/
structure SolveResult (σ : Type) where
  solution : σ
  isValid : Bool
  timeElapsed : ℚ
  problemSize : ℕ
  complexityMetrics : ComplexityMetrics
  driftState : ℚ

/-- Tail of the source function solve: package the already-computed
solution, validity, timing and metrics into the result record. -/
def buildSolveResult {σ : Type} (sol : σ) (valid : Bool) (time : ℚ) (size : ℕ)
    (metrics : ComplexityMetrics) (drift : ℚ) : SolveResult σ :=
  ⟨sol, valid, time, size, metrics, drift⟩

/-- Comparator used by collapseSolution to sort projections by
descending value: an element stays ahead unless its value is strictly
below the other (NaN comparisons keep the original order, as the engine
comparator effectively does). -/
def projValueGe (a b : Projection) : Bool := !(jsLt a.value b.value)

/-- Value of Math.ceil(Math.log2 n) on the positive integer sizes the
engine receives: the ceiling base-2 logarithm. -/
def ceilLog2 (n : ℕ) : ℕ := Nat.clog 2 n

/-- Projection-selection step of the source function collapseSolution:
sort all projections by descending value (stable) and keep the top
ceil(log2(size)); the retained list is what the strategy layer sees.
The subsequent dispatch to a strategy is modelled per strategy. -/
def collapseTopProjections (size : ℕ) (projections : List Projection) : List Projection :=
  (projections.mergeSort projValueGe).take (ceilLog2 size)

/-- Per-variable score accumulation loop of the source function
solveSAT: for variable i, sum (coordinates[0]*(i+1)) % 1 into the
true-leaning score and (coordinates[1]*(i+1)) % 1 into the false-leaning
score, over all projections. -/
def satScores (projections : List Projection) (i : ℕ) : JsNum × JsNum :=
  projections.foldl
    (fun (acc : JsNum × JsNum) p =>
      (jsAdd acc.1 (jsMod1J (jsMul (coordAt p 0) (some ((i : ℚ) + 1)))),
       jsAdd acc.2 (jsMod1J (jsMul (coordAt p 1) (some ((i : ℚ) + 1))))))
    (some 0, some 0)

/-- Clause-bias loop of the source function solveSAT: for every literal
of every clause whose variable index |lit|-1 equals i, subtract 0.1 from
the leaning whose choice would satisfy that literal. -/
def satAdjustScores (clauses : List (List ℤ)) (i : ℕ) (scores : JsNum × JsNum) :
    JsNum × JsNum :=
  clauses.foldl
    (fun acc clause =>
      clause.foldl
        (fun (acc2 : JsNum × JsNum) lit =>
          if ((lit.natAbs : ℤ) - 1) = (i : ℤ) then
            if 0 < lit then (jsSub acc2.1 (some (1/10)), acc2.2)
            else (acc2.1, jsSub acc2.2 (some (1/10)))
          else acc2)
        acc)
    scores

/-- Literal check in the satisfaction test of the source function
solveSAT: assignment[|lit|-1] === (lit > 0), an out-of-bounds read
(undefined) being strictly equal to no boolean. -/
def litSatisfied (assignment : List Bool) (lit : ℤ) : Bool :=
  let idx := (lit.natAbs : ℤ) - 1
  if 0 ≤ idx then
    match assignment.get? idx.toNat with
    | some b => b == decide (0 < lit)
    | none => false
  else false

/-- Source function solveSAT: assign each variable in order by comparing
its adjusted true and false leanings with strict less-than, then report
whether every clause has at least one satisfied literal. -/
def solveSAT (projections : List Projection) (varCount : ℕ) (clauses : List (List ℤ)) :
    List Bool × Bool :=
  let assignment := (List.range varCount).foldl
    (fun assignment i =>
      let scores := satAdjustScores clauses i (satScores projections i)
      assignment.set i (jsLt scores.1 scores.2))
    (List.replicate varCount false)
  let satisfied := clauses.all (fun clause => clause.any (fun lit => litSatisfied assignment lit))
  (assignment, satisfied)


/-- Per-node per-color score of the source function solveGraphColoring:
the projection accumulation (coordinates[0]*node + coordinates[1]*color)
mod 1 summed over projections into nodeValues[color], then a penalty of
100 added for every neighbor currently holding this color (the coloring
array starts as all zeros, so not-yet-processed neighbors read as color
0, as in the source). -/
def nodeColorValue (projections : List Projection) (graph : List (List ℕ))
    (coloring : List ℤ) (i color : ℕ) : JsNum :=
  let base := projections.foldl
    (fun acc p => jsAdd acc (jsMod1J (jsAdd (jsMul (coordAt p 0) (some (i : ℚ)))
      (jsMul (coordAt p 1) (some (color : ℚ)))))) (some 0)
  (List.range graph.length).foldl
    (fun acc j =>
      if (graph.getD i []).getD j 0 == 1 && coloring.getD j 0 == (color : ℤ) then
        jsAdd acc (some 100)
      else acc) base

/-- Color choice of the source function solveGraphColoring:
nodeValues.indexOf(Math.min(...nodeValues)), which is -1 whenever the
minimum is NaN. -/
def chooseColor (nodeValues : List JsNum) : ℤ :=
  jsIndexOf nodeValues (jsMinList nodeValues)

/-- Source function solveGraphColoring: color the nodes in index order,
scoring each candidate color and choosing the first color attaining the
minimal score; the second component models colorCount as Math.max over
the coloring plus one, none standing for the minus infinity of an empty
spread. -/
def solveGraphColoring (projections : List Projection) (graph : List (List ℕ))
    (maxColors : ℕ) : List ℤ × Option ℤ :=
  let n := graph.length
  let coloring := (List.range n).foldl
    (fun coloring i =>
      let nodeValues := (List.range maxColors).map
        (fun color => nodeColorValue projections graph coloring i color)
      coloring.set i (chooseColor nodeValues))
    (List.replicate n 0)
  (coloring, coloring.max?.map (fun m => m + 1))


/-- Source function calculateDriftFactor:
((vectorIndex * PHI + dimensionIndex) mod 1) * sizeFactor * 0.2, where
sizeFactor = 1 / (1 + log10(size)) with Math.log10 supplied as an
explicit primitive. -/
def calculateDriftFactor (jsLog10 : ℚ → ℚ) (size : ℕ) (vectorIndex dimensionIndex : ℕ) : ℚ :=
  jsMod1 ((vectorIndex : ℚ) * PHI + (dimensionIndex : ℚ))
    * (1 / (1 + jsLog10 (size : ℚ))) * (1/5)

/-- One drifted vector of the source function applyQuantumDrift: a
freshly allocated array receiving, per dimension, the clamped drifted
value of the input vector entry. -/
def driftVector (jsLog10 : ℚ → ℚ) (size : ℕ) (driftState : ℚ) (i : ℕ)
    (vector : List JsNum) : List JsNum :=
  vector.mapIdx (fun j v =>
    jsClamp01 (jsAdd v (jsMul (jsMul v (some (calculateDriftFactor jsLog10 size i j)))
      (some driftState))))

/-- Output record of applyQuantumDrift over the explicit vector heap:
the grown heap, the references held by the drifted space, the updated
dimension history, the advanced cycle counter and the new drift state. -/
structure DriftOutput where
  heap : List (List JsNum)
  vectors : List ℕ
  tickStack : List (List JsNum)
  cycleCount : ℕ
  driftState : ℚ

/-- Source function applyQuantumDrift, with the Float64Array allocations
made explicit: vectors live in a heap of arrays addressed by allocation
index, each input vector is read through its reference, its drifted copy
is written to a fresh allocation (the reference heap.length at
allocation time) which replaces the reference in the drifted space and
is pushed onto the dimension history; the cycle counter advances once
per call and the drift state is recomputed through Math.sin. -/
def applyQuantumDrift (jsSin jsLog10 : ℚ → ℚ) (cycleCount : ℕ) (size : ℕ)
    (heap : List (List JsNum)) (refs : List ℕ) (tickStack : List (List JsNum)) :
    DriftOutput :=
  let cycle := cycleCount + 1
  let driftState := jsSin ((cycle : ℚ) * PHI) * (1/10)
  let final := (refs.enum).foldl
    (fun (acc : List (List JsNum) × List ℕ × List (List JsNum)) ir =>
      let vector := acc.1.getD ir.2 []
      let driftedVector := driftVector jsLog10 size driftState ir.1 vector
      (acc.1 ++ [driftedVector], acc.2.1 ++ [acc.1.length],
        pushToTickStack acc.2.2 driftedVector))
    (heap, [], tickStack)
  ⟨final.1, final.2.1, final.2.2, cycle, driftState⟩


/-- Correlation record produced by calculateDimensionalCorrelations. -/
structure Correlation where
  dimensions : ℕ × ℕ
  correlation : JsNum
  deriving Repr, DecidableEq

/-- Source function calculateCorrelation: Pearson correlation of two
equal-length series, 0 when the length guard fails or the denominator is
strictly equal to 0; Math.sqrt is supplied as an explicit primitive that
may return NaN (for a negative input). -/
def calculateCorrelation (jsSqrt : ℚ → JsNum) (series1 series2 : List JsNum) : JsNum :=
  if series1.length ≠ series2.length ∨ series1.length = 0 then some 0
  else
    let n : ℚ := series1.length
    let sum1 := series1.foldl jsAdd (some 0)
    let sum2 := series2.foldl jsAdd (some 0)
    let sum1Sq := series1.foldl (fun acc v => jsAdd acc (jsMul v v)) (some 0)
    let sum2Sq := series2.foldl (fun acc v => jsAdd acc (jsMul v v)) (some 0)
    let pSum := (series1.zip series2).foldl (fun acc vw => jsAdd acc (jsMul vw.1 vw.2)) (some 0)
    let num := jsSub pSum (jsDiv (jsMul sum1 sum2) (some n))
    let den := (jsMul (jsSub sum1Sq (jsDiv (jsMul sum1 sum1) (some n)))
      (jsSub sum2Sq (jsDiv (jsMul sum2 sum2) (some n)))).bind jsSqrt
    if jsStrictEq den (some 0) then some 0 else jsDiv num den

/-- Source function calculateDimensionalCorrelations: for every pair of
dimensions i < j below DIMENSIONS whose windows hold more than 10
samples, the correlation of their last 10 samples. -/
def calculateDimensionalCorrelations (jsSqrt : ℚ → JsNum)
    (tickStack : List (List JsNum)) : List Correlation :=
  (List.range (DIMENSIONS - 1)).flatMap (fun i =>
    ((List.range DIMENSIONS).drop (i + 1)).filterMap (fun j =>
      let dim1 := tickStack.getD i []
      let dim2 := tickStack.getD j []
      if dim1.length > 10 ∧ dim2.length > 10 then
        some ⟨(i, j), calculateCorrelation jsSqrt (dim1.drop (dim1.length - 10))
          (dim2.drop (dim2.length - 10))⟩
      else none))

/-- Comparator used by extractPatterns to sort correlations by
descending absolute strength: an element stays ahead unless its absolute
correlation is strictly below the other. -/
def corrAbsGe (a b : Correlation) : Bool :=
  !(jsLt (jsAbsJ a.correlation) (jsAbsJ b.correlation))

/-- Correlation pattern as built by extractPatterns: the retained
dimension pairs, their correlation strengths, and the projections of the
solution vectors. -/
structure Pattern where
  primaryDimensions : List (ℕ × ℕ)
  correlationStrengths : List JsNum
  vectorProjections : List Projection
  deriving Repr, DecidableEq

/-- Source function projectVectorOntoPatternSpace: one coordinate per
retained dimension pair, (vector[d1] + vector[d2]) / 2 scaled by the
absolute correlation strength, the scalar value accumulating each
coordinate weighted by the matching golden-ratio power. -/
def projectVectorOntoPatternSpace (vector : List JsNum) (patterns : Pattern) : Projection :=
  (List.range patterns.primaryDimensions.length).foldl
    (fun proj i =>
      let pair := patterns.primaryDimensions.getD i (0, 0)
      let strength := jsAbsJ ((patterns.correlationStrengths.get? i).join)
      let coord := jsMul
        (jsDiv (jsAdd ((vector.get? pair.1).join) ((vector.get? pair.2).join)) (some 2))
        strength
      ⟨proj.coordinates ++ [coord], jsAdd proj.value (jsMul coord (some (PHI ^ i)))⟩)
    ⟨[], some 0⟩

/-- Lookup in the pattern cache Map. -/
def mapGet (cache : List (String × Pattern)) (key : String) : Option Pattern :=
  (cache.find? (fun e => e.1 == key)).map (fun e => e.2)

/-- Insert-or-replace in the pattern cache Map. -/
def mapSet (cache : List (String × Pattern)) (key : String) (pat : Pattern) :
    List (String × Pattern) :=
  if cache.any (fun e => e.1 == key) then
    cache.map (fun e => if e.1 == key then (key, pat) else e)
  else cache ++ [(key, pat)]

/-- Source function isPatternValid.  As in the source, the pattern
argument is unused and the key that is split is generated from the
problem being looked up itself, so the size comparison is between the
problem and itself; parseInt on the second hyphen-separated part returns
NaN (none) whenever the problem kind itself contains a hyphen, making
the whole check false in that case. -/
def isPatternValid (_pattern : Pattern) (p : Problem) : Bool :=
  let cachedKey := generateProblemKey p
  let parts := cachedKey.splitOn "-"
  let cachedType := parts.getD 0 ""
  let cachedSize := jsParseInt (parts.getD 1 "")
  cachedType == p.type &&
    (match cachedSize with
     | some cs => decide (|(cs : ℚ) - (p.size : ℚ)| / (p.size : ℚ) < 1/5)
     | none => false)

/-- Source function extractPatterns: return the cached pattern untouched
when the exact key is present and the validity check passes; otherwise
compute correlations from the dimension history, keep the top 3 by
absolute strength, project the solution vectors, and store the fresh
pattern under the exact key. -/
def extractPatterns (jsSqrt : ℚ → JsNum) (tickStack : List (List JsNum))
    (vectors : List (List JsNum)) (cache : List (String × Pattern)) (p : Problem) :
    Pattern × List (String × Pattern) :=
  let problemKey := generateProblemKey p
  let compute : Pattern × List (String × Pattern) :=
    let correlations := calculateDimensionalCorrelations jsSqrt tickStack
    let sorted := correlations.mergeSort corrAbsGe
    let patterns0 : Pattern := ⟨(sorted.take 3).map (fun c => c.dimensions),
      (sorted.take 3).map (fun c => c.correlation), []⟩
    let projections := vectors.map (fun v => projectVectorOntoPatternSpace v patterns0)
    let patterns : Pattern :=
      ⟨patterns0.primaryDimensions, patterns0.correlationStrengths, projections⟩
    (patterns, mapSet cache problemKey patterns)
  match mapGet cache problemKey with
  | some cachedPattern =>
      if isPatternValid cachedPattern p then (cachedPattern, cache) else compute
  | none => compute

/-! ### Theorems -/

theorem jsTrunc_eq (q : ℚ) : jsTrunc q = if 0 ≤ q then ⌊q⌋ else ⌈q⌉ := by
  unfold jsTrunc
  rcases le_or_lt 0 q with h | h
  · rw [if_pos h, if_pos h, Rat.floor_def', Rat.floor_def]
  · rw [if_neg (not_le.mpr h), if_neg (not_le.mpr h), Rat.floor_def',
      ← Rat.floor_def, Int.floor_neg, neg_neg]

theorem jsMod1_of_unit (q : ℚ) (h0 : 0 ≤ q) (h1 : q < 1) : jsMod1 q = q := by
  unfold jsMod1
  rw [jsTrunc_eq, if_pos h0, Int.floor_eq_zero_iff.mpr ⟨h0, h1⟩]
  simp

theorem jsMod1_zero : jsMod1 0 = 0 := jsMod1_of_unit 0 le_rfl one_pos

theorem pushTick_of_le (s : List JsNum) (v : JsNum) (h : s.length ≤ 100) :
    pushTick s v = (s ++ [v]).drop (s.length + 1 - 100) := by
  unfold pushTick
  simp only [List.length_append, List.length_cons, List.length_nil, Nat.zero_add]
  by_cases h1 : s.length + 1 > 100
  · rw [if_pos h1]
    have hs : s.length + 1 - 100 = 1 := by omega
    rw [hs, ← List.drop_one]
  · rw [if_neg h1]
    have : s.length + 1 - 100 = 0 := by omega
    rw [this, List.drop_zero]

theorem pushTick_length_le (s : List JsNum) (v : JsNum) (h : s.length ≤ 100) :
    (pushTick s v).length ≤ 100 := by
  rw [pushTick_of_le s v h]
  simp only [List.length_drop, List.length_append, List.length_cons, List.length_nil]
  omega

theorem drop_append_drop {α : Type} (a b : List α) (k m : ℕ) (h : k ≤ a.length) :
    (a.drop k ++ b).drop m = (a ++ b).drop (k + m) := by
  conv_rhs => rw [show a = a.take k ++ a.drop k by simp]
  rw [List.append_assoc]
  rw [show k + m = (a.take k).length + m by simp [List.length_take]; omega]
  rw [List.drop_append]

theorem foldl_pushTick_char (vs : List JsNum) :
    ∀ (s : List JsNum), s.length ≤ 100 →
      vs.foldl pushTick s = (s ++ vs).drop (s.length + vs.length - 100) := by
  induction vs with
  | nil =>
    intro s hs
    simp only [List.foldl_nil, List.append_nil, List.length_nil, Nat.add_zero]
    have : s.length - 100 = 0 := by omega
    rw [this, List.drop_zero]
  | cons v vs ih =>
    intro s hs
    simp only [List.foldl_cons]
    rw [ih (pushTick s v) (pushTick_length_le s v hs)]
    rw [pushTick_of_le s v hs]
    rw [drop_append_drop (s ++ [v]) vs _ _ (by simp; omega)]
    have h2 : (s ++ [v]) ++ vs = s ++ (v :: vs) := by simp
    rw [h2]
    congr 1
    simp only [List.length_drop, List.length_append, List.length_cons, List.length_nil]
    omega

/-- C8: for every dimension index, the dimension-history window always
holds at most 100 values, and the window built by repeated pushes holds
exactly the last 100 pushed values, so every append to a full window
evicts exactly the oldest entry and after more than 100 drift
applications to one dimension the oldest pre-window value is gone. -/
theorem tick_window_fifo_capacity (vs : List JsNum) :
    vs.foldl pushTick [] = vs.drop (vs.length - 100) ∧
      (vs.foldl pushTick []).length ≤ 100 := by
  have h := foldl_pushTick_char vs [] (by simp)
  simp only [List.length_nil, Nat.zero_add, List.nil_append] at h
  refine ⟨h, ?_⟩
  rw [h]
  simp only [List.length_drop]
  omega

theorem refine_fold_invariant (numbers : List ℚ) (target : ℚ) (l : List ℕ) :
    ∀ best : List Bool × ℚ, best.2 = calculateSubsetSumDiff numbers target best.1 →
      ((l.foldl (fun (best : List Bool × ℚ) i =>
        let testSubset := jsFlipAt best.1 i
        let diff := calculateSubsetSumDiff numbers target testSubset
        if diff < best.2 then (testSubset, diff) else best) best).2
          = calculateSubsetSumDiff numbers target
            (l.foldl (fun (best : List Bool × ℚ) i =>
              let testSubset := jsFlipAt best.1 i
              let diff := calculateSubsetSumDiff numbers target testSubset
              if diff < best.2 then (testSubset, diff) else best) best).1
        ∧ (l.foldl (fun (best : List Bool × ℚ) i =>
            let testSubset := jsFlipAt best.1 i
            let diff := calculateSubsetSumDiff numbers target testSubset
            if diff < best.2 then (testSubset, diff) else best) best).2 ≤ best.2) := by
  induction l with
  | nil => intro best h; exact ⟨h, le_refl _⟩
  | cons i l ih =>
    intro best h
    simp only [List.foldl_cons]
    by_cases hc : calculateSubsetSumDiff numbers target (jsFlipAt best.1 i) < best.2
    · have step :
          (let testSubset := jsFlipAt best.1 i
           let diff := calculateSubsetSumDiff numbers target testSubset
           if diff < best.2 then (testSubset, diff) else best)
            = (jsFlipAt best.1 i, calculateSubsetSumDiff numbers target (jsFlipAt best.1 i)) := by
        simp only [if_pos hc]
      rw [step]
      have := ih (jsFlipAt best.1 i, calculateSubsetSumDiff numbers target (jsFlipAt best.1 i)) rfl
      exact ⟨this.1, le_trans this.2 (le_of_lt hc)⟩
    · have step :
          (let testSubset := jsFlipAt best.1 i
           let diff := calculateSubsetSumDiff numbers target testSubset
           if diff < best.2 then (testSubset, diff) else best) = best := by
        simp only [if_neg hc]
      rw [step]
      exact ih best h

/-- C5: the subset returned by the subset-sum refinement step is never
farther from the target than the pre-refinement subset: the reported
difference is bounded by the initial distance to the target. -/
theorem refineSubsetSum_never_worse (projections : List Projection) (numbers : List ℚ)
    (target : ℚ) (initialSubset : List Bool) :
    (refineSubsetSum projections numbers target initialSubset).difference
      ≤ calculateSubsetSumDiff numbers target initialSubset := by
  unfold refineSubsetSum
  simp only
  have h := refine_fold_invariant numbers target (List.range numbers.length)
    (initialSubset, calculateSubsetSumDiff numbers target initialSubset) rfl
  calc |selectedSum numbers
          ((List.range numbers.length).foldl
            (fun (best : List Bool × ℚ) i =>
              let testSubset := jsFlipAt best.1 i
              let diff := calculateSubsetSumDiff numbers target testSubset
              if diff < best.2 then (testSubset, diff) else best)
            (initialSubset, calculateSubsetSumDiff numbers target initialSubset)).1 - target|
      = ((List.range numbers.length).foldl
            (fun (best : List Bool × ℚ) i =>
              let testSubset := jsFlipAt best.1 i
              let diff := calculateSubsetSumDiff numbers target testSubset
              if diff < best.2 then (testSubset, diff) else best)
            (initialSubset, calculateSubsetSumDiff numbers target initialSubset)).2 := by
        rw [h.1]; rfl
    _ ≤ calculateSubsetSumDiff numbers target initialSubset := h.2

/-- C6 counterexample: two instances of the same kind and size whose
dimension counts differ map to different cache keys, refuting the claim
that the key is composed of kind and size only. -/
theorem problemKey_depends_on_dimensions :
    generateProblemKey ⟨"sat", 10, some 5, []⟩ ≠ generateProblemKey ⟨"sat", 10, some 7, []⟩ := by
  decide

/-- C6 amended: the cache key is composed of kind, size and the resolved
dimension count: instances agreeing on kind and size but whose resolved
dimension counts print differently receive different keys. -/
theorem problemKey_includes_dimensions (t : String) (s : ℕ) (d1 d2 : Option ℤ)
    (h : toString (resolveDims d1) ≠ toString (resolveDims d2)) :
    generateProblemKey ⟨t, s, d1, []⟩ ≠ generateProblemKey ⟨t, s, d2, []⟩ := by
  intro hk
  apply h
  unfold generateProblemKey at hk
  simp only at hk
  have hd := congrArg String.data hk
  simp only [String.data_append, List.append_assoc, List.singleton_append] at hd
  have h2 := List.append_cancel_left hd
  injection h2 with _ h3
  have h4 := List.append_cancel_left h3
  injection h4 with _ h5
  exact String.ext h5

/-- C6 amended witness: the concrete pair of instances from the
counterexample satisfies the hypothesis and the conclusion. -/
theorem problemKey_includes_dimensions_witness :
    generateProblemKey ⟨"sat", 10, some 5, []⟩ ≠ generateProblemKey ⟨"sat", 10, some 7, []⟩ :=
  problemKey_includes_dimensions "sat" 10 (some 5) (some 7) (by decide)

theorem generateSolutionVector_neg_aux (p : Problem) (seed : ℕ) (d : ℤ) (hd : d < 0)
    (hpd : p.dimensions = some d) :
    generateSolutionVector p seed = .error "RangeError" := by
  unfold generateSolutionVector
  have hres : resolveDims p.dimensions = d := by
    rw [hpd]
    show (if d = 0 then 11 else d) = d
    rw [if_neg (by omega)]
  rw [hres, if_pos hd]

/-- C4 counterexample: a dimension count of 0 does not fail; the falsy
default makes the sampler fall back to 11 dimensions and produce a full
vector, refuting the claim that D = 0 raises a fatal InvalidDimension
error with no fallback. -/
theorem generateSolutionVector_zero_dims_falls_back :
    generateSolutionVector ⟨"sat", 10, some 0, []⟩ 0 = .ok (List.replicate 11 (some 0)) := by
  unfold generateSolutionVector
  rw [show resolveDims (some 0) = 11 from rfl, if_neg (by decide)]
  have hphase : jsMod1 (((0 : ℕ) : ℚ) * PHI) = 0 := by
    rw [show (((0 : ℕ) : ℚ)) * PHI = 0 by push_cast; ring, jsMod1_zero]
  simp only [hphase, mul_zero, zero_mul, jsMod1_zero, constraintAt, List.get?_nil,
    Option.join, Except.ok.injEq]
  rw [List.map_const', List.length_range]
  rfl

/-- C4 amended: a dimension count of 0 falls back to the default 11 and
produces an 11-entry vector with no error, while a negative dimension
count makes the Float64Array allocation throw a RangeError, which also
aborts initializeSolutionSpace whenever at least one vector is
requested; no InvalidDimension error exists in the engine. -/
theorem generateSolutionVector_dims_nonpositive (p : Problem) (seed : ℕ) :
    (p.dimensions = some 0 →
      (generateSolutionVector p seed).map List.length = .ok 11) ∧
    (∀ d : ℤ, d < 0 → p.dimensions = some d →
      generateSolutionVector p seed = .error "RangeError") ∧
    (∀ (jsLog2 : ℚ → ℚ) (d : ℤ), d < 0 → p.dimensions = some d →
      1 ≤ (⌈jsLog2 (p.size : ℚ) * PHI⌉ : ℤ) →
      initializeSolutionSpace jsLog2 p = .error "RangeError") := by
  refine ⟨?_, ?_, ?_⟩
  · intro h0
    unfold generateSolutionVector
    have hres : resolveDims p.dimensions = 11 := by
      rw [h0]; rfl
    rw [hres, if_neg (by omega)]
    simp [Except.map, List.length_map, List.length_range]
  · intro d hd hpd
    exact generateSolutionVector_neg_aux p seed d hd hpd
  · intro jsLog2 d hd hpd hcount
    show generateVectors p
      (List.range (⌈jsLog2 ((p.size : ℚ)) * PHI⌉ : ℤ).toNat) = .error "RangeError"
    obtain ⟨m, hm⟩ : ∃ m, (⌈jsLog2 ((p.size : ℚ)) * PHI⌉ : ℤ).toNat = m + 1 := by
      refine ⟨(⌈jsLog2 ((p.size : ℚ)) * PHI⌉ : ℤ).toNat - 1, ?_⟩
      omega
    rw [hm, List.range_succ_eq_map]
    show (match generateSolutionVector p 0 with
      | .error e => .error e
      | .ok v =>
        match generateVectors p ((List.range m).map Nat.succ) with
        | .error e => .error e
        | .ok vs => .ok (v :: vs)) = Except.error "RangeError"
    rw [generateSolutionVector_neg_aux p 0 d hd hpd]

/-- C4 amended witness: the amended behaviors evaluated at concrete
instances with dimension counts 0 and -3. -/
theorem generateSolutionVector_dims_nonpositive_witness :
    (generateSolutionVector ⟨"sat", 10, some 0, []⟩ 0).map List.length = .ok 11 ∧
    generateSolutionVector ⟨"sat", 10, some (-3), []⟩ 0 = .error "RangeError" ∧
    initializeSolutionSpace (fun _ => 4) ⟨"sat", 10, some (-3), []⟩ = .error "RangeError" :=
  ⟨(generateSolutionVector_dims_nonpositive ⟨"sat", 10, some 0, []⟩ 0).1 rfl,
   (generateSolutionVector_dims_nonpositive ⟨"sat", 10, some (-3), []⟩ 0).2.1 (-3)
     (by decide) rfl,
   (generateSolutionVector_dims_nonpositive ⟨"sat", 10, some (-3), []⟩ 0).2.2
     (fun _ => 4) (-3) (by decide) rfl
     (by
       rw [Int.one_le_ceil_iff]
       have hphi : (0 : ℚ) < PHI := by rw [PHI]; norm_num
       positivity)⟩

/-- C7 counterexample: evaluated at size 2 and elapsed time 10 (with any
fixed logarithm primitive, here the constant-1 stub), the value computed
by the engine differs from the spec formula elapsedTime/(size*ln size):
the engine first divides the elapsed time by 10. -/
theorem measuredComplexity_not_spec :
    getMeasuredComplexity (fun _ => 1) 2 10 ≠ specMeasuredComplexity (fun _ => 1) 2 10 := by
  unfold getMeasuredComplexity specMeasuredComplexity
  norm_num

/-- C7 amended: the reported measured complexity is one tenth of the
spec formula, the polynomial-degree estimate and its 2-decimal rounding
are exactly as stated, and the metrics only populate the metrics field
of the result record, leaving the returned solution and validity
untouched. -/
theorem metrics_formulas (jsLog : ℚ → ℚ) (size time : ℚ) :
    specMeasuredComplexity jsLog size time = 10 * getMeasuredComplexity jsLog size time ∧
    getPolynomialDegree jsLog size time = specPolynomialDegree jsLog size time ∧
    ∀ (σ : Type) (sol : σ) (valid : Bool) (ptype : String) (drift : ℚ) (n : ℕ),
      (buildSolveResult sol valid time n
          (calculateComplexityMetrics jsLog ptype size time) drift).solution = sol ∧
      (buildSolveResult sol valid time n
          (calculateComplexityMetrics jsLog ptype size time) drift).isValid = valid := by
  refine ⟨?_, rfl, ?_⟩
  · unfold specMeasuredComplexity getMeasuredComplexity
    simp only [div_eq_mul_inv]
    ring
  · intro σ sol valid ptype drift n
    exact ⟨rfl, rfl⟩

/-- C2 counterexample: for size 1 the collapse step keeps
ceil(log2(1)) = 0 projections, so the strategy receives an empty
evidence list even when projections exist, refuting the claimed
max(1, ...) floor. -/
theorem collapse_size_one_empty :
    collapseTopProjections 1 [⟨[], some 0⟩] = [] := by
  unfold collapseTopProjections
  rw [show ceilLog2 1 = 0 from Nat.clog_one_right 2]
  simp

/-- C2 amended: the collapse step keeps exactly the top ceil(log2(size))
projections of the descending-value sort, with no minimum of one: for
size 1 the strategy receives the empty list, while for size at least 2
it receives at least one projection whenever any exist. -/
theorem collapse_keeps_clog2 (size : ℕ) (projections : List Projection) (h : 1 ≤ size) :
    (collapseTopProjections size projections).length
        = min (ceilLog2 size) projections.length ∧
      (size = 1 → collapseTopProjections size projections = []) ∧
      (2 ≤ size → projections ≠ [] → collapseTopProjections size projections ≠ []) := by
  refine ⟨?_, ?_, ?_⟩
  · unfold collapseTopProjections
    rw [List.length_take, List.length_mergeSort]
  · intro h1
    subst h1
    unfold collapseTopProjections
    rw [show ceilLog2 1 = 0 from Nat.clog_one_right 2]
    simp
  · intro h2 hne
    have hlen : (collapseTopProjections size projections).length
        = min (ceilLog2 size) projections.length := by
      unfold collapseTopProjections
      rw [List.length_take, List.length_mergeSort]
    intro hcontra
    rw [hcontra] at hlen
    have hclog : 0 < Nat.clog 2 size := Nat.clog_pos one_lt_two h2
    have hpos : 0 < projections.length := List.length_pos.mpr hne
    simp only [List.length_nil] at hlen
    unfold ceilLog2 at hlen
    omega

/-- C2 amended witness: size 2 with one projection keeps exactly one
projection. -/
theorem collapse_keeps_clog2_witness :
    (collapseTopProjections 2 [⟨[], some 0⟩]).length
        = min (ceilLog2 2) ([(⟨[], some 0⟩ : Projection)]).length ∧
      ((2 : ℕ) = 1 → collapseTopProjections 2 [⟨[], some 0⟩] = []) ∧
      (2 ≤ 2 → ([(⟨[], some 0⟩ : Projection)]) ≠ [] →
        collapseTopProjections 2 [⟨[], some 0⟩] ≠ []) :=
  collapse_keeps_clog2 2 [⟨[], some 0⟩] (by decide)

theorem satAdjust_unit (s : JsNum × JsNum) :
    satAdjustScores [[1]] 0 s = (jsSub s.1 (some (1/10)), s.2) := by
  unfold satAdjustScores
  simp only [List.foldl_cons, List.foldl_nil]
  norm_num

/-- C3 amended: for the one-variable instance with unit clause made of
literal 1, the solution is assignment [true] with satisfied true exactly
when the biased comparison (trueScore - 0.1) < falseScore holds, which
the 0.1 clause bias guarantees only when the projection-derived scores
are within 0.1 of each other (for instance for the empty projection
list), not for every projection list. -/
theorem solveSAT_unit_clause (projections : List Projection)
    (h : jsLt (jsSub (satScores projections 0).1 (some (1/10)))
      (satScores projections 0).2 = true) :
    solveSAT projections 1 [[1]] = ([true], true) := by
  unfold solveSAT
  rw [show List.range 1 = [0] from rfl, show List.replicate 1 false = [false] from rfl]
  simp only [List.foldl_cons, List.foldl_nil, satAdjust_unit]
  rw [h]
  simp [litSatisfied]

/-- C3 amended witness: the empty projection list satisfies the biased
comparison and yields the satisfied assignment. -/
theorem solveSAT_unit_clause_witness :
    solveSAT [] 1 [[1]] = ([true], true) :=
  solveSAT_unit_clause [] (by norm_num [satScores, jsSub, jsLt])

/-- C3 counterexample: a projection list the strategy can receive (one
projection whose first coordinate is 0.95 and second coordinate 0) makes
the true-leaning score 0.95 - 0.1 = 0.85, which is not below the
false-leaning score 0, so the variable is assigned false and the unit
clause is reported unsatisfied, refuting the claim that the instance is
always found satisfied. -/
theorem solveSAT_unit_clause_counterexample :
    solveSAT [⟨[some (19/20), some 0], some 0⟩] 1 [[1]] = ([false], false) ∧
      solveSAT [⟨[some (19/20), some 0], some 0⟩] 1 [[1]] ≠ ([true], true) := by
  have hscore : satScores [⟨[some (19/20), some 0], some 0⟩] 0 = (some (19/20), some 0) := by
    unfold satScores
    simp only [List.foldl_cons, List.foldl_nil, coordAt, List.get?_cons_zero, Option.join]
    norm_num [jsMul, jsAdd, jsMod1J, jsMod1_of_unit, jsMod1_zero]
  have heq : solveSAT [⟨[some (19/20), some 0], some 0⟩] 1 [[1]] = ([false], false) := by
    unfold solveSAT
    rw [show List.range 1 = [0] from rfl, show List.replicate 1 false = [false] from rfl]
    simp only [List.foldl_cons, List.foldl_nil, satAdjust_unit, hscore]
    have hlt : jsLt (jsSub (some ((19 : ℚ)/20)) (some (1/10))) (some 0) = false := by
      norm_num [jsSub, jsLt]
    rw [hlt]
    simp [litSatisfied]
  refine ⟨heq, ?_⟩
  rw [heq]
  decide

theorem jsAdd_isSome_of (a b : JsNum) (ha : a.isSome) (hb : b.isSome) :
    (jsAdd a b).isSome := by
  cases a with
  | none => simp at ha
  | some x =>
    cases b with
    | none => simp at hb
    | some y => rfl

theorem foldl_jsMin2_mem (t : List JsNum) :
    ∀ h : JsNum, t.foldl jsMin2 h ∈ h :: t := by
  induction t with
  | nil => intro h; simp
  | cons v t ih =>
    intro h
    simp only [List.foldl_cons]
    have hm : jsMin2 h v = h ∨ jsMin2 h v = v := by
      cases h with
      | none => left; rfl
      | some x =>
        cases v with
        | none => right; rfl
        | some y =>
          rcases min_choice x y with hc | hc
          · left; simp [jsMin2, hc]
          · right; simp [jsMin2, hc]
    rcases List.mem_cons.mp (ih (jsMin2 h v)) with heq | hmem
    · rcases hm with he | he
      · rw [heq, he]; exact List.mem_cons_self h (v :: t)
      · rw [heq, he]; exact List.mem_cons_of_mem h (List.mem_cons_self v t)
    · exact List.mem_cons_of_mem h (List.mem_cons_of_mem v hmem)

theorem jsMinList_mem (l : List JsNum) (hne : l ≠ []) : jsMinList l ∈ l := by
  cases l with
  | nil => exact absurd rfl hne
  | cons h t => exact foldl_jsMin2_mem t h

theorem jsIndexOf_mem_isSome (l : List JsNum) (x : JsNum) (hx : x ∈ l) (hs : x.isSome) :
    0 ≤ jsIndexOf l x ∧ jsIndexOf l x < l.length := by
  induction l with
  | nil => simp at hx
  | cons y t ih =>
    by_cases hy : jsStrictEq y x = true
    · unfold jsIndexOf
      rw [List.findIdx?_cons, hy]
      simp
    · have hxt : x ∈ t := by
        rcases List.mem_cons.mp hx with he | hmem
        · exfalso
          apply hy
          subst he
          obtain ⟨q, hq⟩ := Option.isSome_iff_exists.mp hs
          subst hq
          simp [jsStrictEq]
        · exact hmem
      have ihr := ih hxt
      unfold jsIndexOf at ihr ⊢
      rw [List.findIdx?_cons, if_neg (by simpa using hy), List.findIdx?_succ]
      cases hfi : t.findIdx? (fun y => jsStrictEq y x) with
      | none =>
        rw [hfi] at ihr
        simp only [] at ihr
        exact absurd ihr.1 (by norm_num)
      | some k =>
        rw [hfi] at ihr
        simp only [hfi, Option.map, List.length_cons]
        push_cast at ihr ⊢
        omega

theorem nodeColorValue_isSome (projections : List Projection) (graph : List (List ℕ))
    (coloring : List ℤ) (i color : ℕ)
    (hc : ∀ p ∈ projections, (coordAt p 0).isSome ∧ (coordAt p 1).isSome) :
    (nodeColorValue projections graph coloring i color).isSome := by
  unfold nodeColorValue
  have hbase : ∀ (l : List Projection) (acc : JsNum), acc.isSome →
      (∀ p ∈ l, (coordAt p 0).isSome ∧ (coordAt p 1).isSome) →
      (l.foldl (fun acc p => jsAdd acc (jsMod1J (jsAdd (jsMul (coordAt p 0) (some (i : ℚ)))
        (jsMul (coordAt p 1) (some (color : ℚ)))))) acc).isSome := by
    intro l
    induction l with
    | nil => intro acc ha _; simpa using ha
    | cons p l ih =>
      intro acc ha hl
      simp only [List.foldl_cons]
      apply ih
      · obtain ⟨h0, h1⟩ := hl p (List.mem_cons_self p l)
        obtain ⟨q0, hq0⟩ := Option.isSome_iff_exists.mp h0
        obtain ⟨q1, hq1⟩ := Option.isSome_iff_exists.mp h1
        obtain ⟨qa, hqa⟩ := Option.isSome_iff_exists.mp ha
        rw [hq0, hq1, hqa]
        rfl
      · intro p2 hp2
        exact hl p2 (List.mem_cons_of_mem p hp2)
  have hpen : ∀ (l : List ℕ) (acc : JsNum), acc.isSome →
      (l.foldl (fun acc j =>
        if (graph.getD i []).getD j 0 == 1 && coloring.getD j 0 == (color : ℤ) then
          jsAdd acc (some 100)
        else acc) acc).isSome := by
    intro l
    induction l with
    | nil => intro acc ha; simpa using ha
    | cons j l ih =>
      intro acc ha
      simp only [List.foldl_cons]
      apply ih
      by_cases hcond : ((graph.getD i []).getD j 0 == 1 && coloring.getD j 0 == (color : ℤ)) = true
      · rw [if_pos hcond]
        exact jsAdd_isSome_of acc (some 100) ha rfl
      · rw [if_neg hcond]
        exact ha
  exact hpen _ _ (hbase projections (some 0) rfl hc)

theorem chooseColor_in_range (nodeValues : List JsNum) (hne : nodeValues ≠ [])
    (hall : ∀ v ∈ nodeValues, v.isSome) :
    0 ≤ chooseColor nodeValues ∧ chooseColor nodeValues < nodeValues.length := by
  unfold chooseColor
  have hmem := jsMinList_mem nodeValues hne
  exact jsIndexOf_mem_isSome nodeValues (jsMinList nodeValues) hmem (hall _ hmem)

/-- C10 counterexample: a projection with an empty coordinate list (as
produced when no correlated dimension pairs exist yet) makes every
per-color score NaN; Math.min then yields NaN, indexOf cannot find it,
and the node is colored -1, outside [0, maxColors). -/
theorem solveGraphColoring_nan_out_of_range :
    (solveGraphColoring [⟨[], some 0⟩] [[0]] 1).1 = [-1] ∧
      ¬ (0 ≤ (-1 : ℤ) ∧ (-1 : ℤ) < 1) := by
  constructor
  · rfl
  · decide

/-- C10 amended: for maxColors at least 1 and projections whose first
two coordinates are numbers (the well-formed case; with fewer than two
coordinates NaN propagation can emit -1 instead), every entry of the
returned coloring lies in [0, maxColors), regardless of what the
verifier later reports. -/
theorem solveGraphColoring_in_range (projections : List Projection) (graph : List (List ℕ))
    (maxColors : ℕ) (hm : 1 ≤ maxColors)
    (hc : ∀ p ∈ projections, (coordAt p 0).isSome ∧ (coordAt p 1).isSome) :
    ∀ c ∈ (solveGraphColoring projections graph maxColors).1,
      0 ≤ c ∧ c < (maxColors : ℤ) := by
  unfold solveGraphColoring
  simp only
  have key : ∀ (l : List ℕ) (coloring : List ℤ),
      (∀ c ∈ coloring, 0 ≤ c ∧ c < (maxColors : ℤ)) →
      ∀ c ∈ l.foldl (fun coloring i =>
          coloring.set i (chooseColor ((List.range maxColors).map
            (fun color => nodeColorValue projections graph coloring i color)))) coloring,
        0 ≤ c ∧ c < (maxColors : ℤ) := by
    intro l
    induction l with
    | nil => intro coloring h; simpa using h
    | cons i l ih =>
      intro coloring h
      simp only [List.foldl_cons]
      apply ih
      intro c hcmem
      rcases List.mem_or_eq_of_mem_set hcmem with hmem | heq
      · exact h c hmem
      · subst heq
        have hne : ((List.range maxColors).map
            (fun color => nodeColorValue projections graph coloring i color)) ≠ [] := by
          simp only [ne_eq, List.map_eq_nil_iff, List.range_eq_nil]
          omega
        have hall : ∀ v ∈ ((List.range maxColors).map
            (fun color => nodeColorValue projections graph coloring i color)), v.isSome := by
          intro v hv
          obtain ⟨color, _, hveq⟩ := List.mem_map.mp hv
          rw [← hveq]
          exact nodeColorValue_isSome projections graph coloring i color hc
        have hrange := chooseColor_in_range _ hne hall
        rw [List.length_map, List.length_range] at hrange
        exact ⟨hrange.1, hrange.2⟩
  apply key
  intro c hcmem
  rw [List.eq_of_mem_replicate hcmem]
  exact ⟨le_refl 0, by omega⟩

/-- C10 amended witness: a concrete two-node instance with a well-formed
projection; every coloring entry lands in [0, 2). -/
theorem solveGraphColoring_in_range_witness :
    ((solveGraphColoring [⟨[some (1/2), some (1/3)], some 0⟩] [[0, 1], [1, 0]] 2).1.all
      (fun c => decide (0 ≤ c) && decide (c < ((2 : ℕ) : ℤ)))) = true := by
  rw [List.all_eq_true]
  intro c hc
  have hr := solveGraphColoring_in_range [⟨[some (1/2), some (1/3)], some 0⟩]
    [[0, 1], [1, 0]] 2 (by decide) (by decide) c hc
  have h1 := hr.1
  have h2 := hr.2
  simp only [Bool.and_eq_true, decide_eq_true_eq]
  exact ⟨h1, by exact_mod_cast h2⟩

theorem drift_fold_spec (jsLog10 : ℚ → ℚ) (size : ℕ) (driftState : ℚ) :
    ∀ (l : List (ℕ × ℕ)) (h0 : List (List JsNum)) (nr : List ℕ) (ts : List (List JsNum)),
      ∃ ext : List (List JsNum),
        (l.foldl
          (fun (acc : List (List JsNum) × List ℕ × List (List JsNum)) ir =>
            let vector := acc.1.getD ir.2 []
            let driftedVector := driftVector jsLog10 size driftState ir.1 vector
            (acc.1 ++ [driftedVector], acc.2.1 ++ [acc.1.length],
              pushToTickStack acc.2.2 driftedVector))
          (h0, nr, ts)).1 = h0 ++ ext ∧
        (l.foldl
          (fun (acc : List (List JsNum) × List ℕ × List (List JsNum)) ir =>
            let vector := acc.1.getD ir.2 []
            let driftedVector := driftVector jsLog10 size driftState ir.1 vector
            (acc.1 ++ [driftedVector], acc.2.1 ++ [acc.1.length],
              pushToTickStack acc.2.2 driftedVector))
          (h0, nr, ts)).2.1 = nr ++ List.range' h0.length l.length := by
  intro l
  induction l with
  | nil =>
    intro h0 nr ts
    exact ⟨[], by simp, by simp [List.range']⟩
  | cons p l ih =>
    intro h0 nr ts
    simp only [List.foldl_cons]
    obtain ⟨ext, hheap, hvec⟩ := ih
      (h0 ++ [driftVector jsLog10 size driftState p.1 (h0.getD p.2 [])])
      (nr ++ [h0.length])
      (pushToTickStack ts (driftVector jsLog10 size driftState p.1 (h0.getD p.2 [])))
    refine ⟨driftVector jsLog10 size driftState p.1 (h0.getD p.2 []) :: ext, ?_, ?_⟩
    · rw [hheap, List.append_assoc]
      rfl
    · rw [hvec]
      simp only [List.length_append, List.length_cons, List.length_nil, List.length_cons]
      rw [List.append_assoc]
      congr 1

/-- C9: applying the drift transformation never mutates the vectors the
sampler produced: the heap of already-allocated vectors survives as an
unchanged prefix (every original reference still reads its original
entries), and the drifted space holds only freshly allocated references,
namely the block of allocation indices starting at the old heap size. -/
theorem applyQuantumDrift_no_mutation (jsSin jsLog10 : ℚ → ℚ) (cycleCount size : ℕ)
    (heap : List (List JsNum)) (refs : List ℕ) (tickStack : List (List JsNum)) :
    (applyQuantumDrift jsSin jsLog10 cycleCount size heap refs tickStack).heap.take heap.length
        = heap ∧
      (applyQuantumDrift jsSin jsLog10 cycleCount size heap refs tickStack).vectors
        = List.range' heap.length refs.length := by
  unfold applyQuantumDrift
  simp only
  obtain ⟨ext, hheap, hvec⟩ := drift_fold_spec jsLog10 size
    (jsSin (((cycleCount + 1 : ℕ) : ℚ) * PHI) * (1/10)) refs.enum heap [] tickStack
  rw [hheap, hvec]
  constructor
  · exact List.take_left heap ext
  · simp [List.enum_length]

/-- C1: with a pattern cached for kind sat at size 10 (11 dimensions), a
second solve at kind sat and size 11 satisfies the 20-percent similarity
condition |10 - 11| / 11 < 0.2, yet its key misses the cache (keys embed
the exact size), so extractPatterns computes and returns a fresh pattern
instead of reusing the cached one, and no correlation work is skipped:
the documented similar-size reuse can never trigger. -/
theorem patternCache_similar_size_miss :
    generateProblemKey ⟨"sat", 10, some 11, []⟩ ≠ generateProblemKey ⟨"sat", 11, some 11, []⟩ ∧
    |(10 : ℚ) - 11| / 11 < 1/5 ∧
    mapGet [(generateProblemKey ⟨"sat", 10, some 11, []⟩,
        (⟨[(0, 1)], [some 1], []⟩ : Pattern))]
      (generateProblemKey ⟨"sat", 11, some 11, []⟩) = none ∧
    (extractPatterns (fun _ => none) (List.replicate 11 []) [[some 0]]
      [(generateProblemKey ⟨"sat", 10, some 11, []⟩, (⟨[(0, 1)], [some 1], []⟩ : Pattern))]
      ⟨"sat", 11, some 11, []⟩).1 = ⟨[], [], [⟨[], some 0⟩]⟩ ∧
    (extractPatterns (fun _ => none) (List.replicate 11 []) [[some 0]]
      [(generateProblemKey ⟨"sat", 10, some 11, []⟩, (⟨[(0, 1)], [some 1], []⟩ : Pattern))]
      ⟨"sat", 11, some 11, []⟩).1 ≠ (⟨[(0, 1)], [some 1], []⟩ : Pattern) := by
  have hcorr : calculateDimensionalCorrelations (fun _ => none) (List.replicate 11 []) = [] := by
    decide
  have hmiss : mapGet [(generateProblemKey ⟨"sat", 10, some 11, []⟩,
      (⟨[(0, 1)], [some 1], []⟩ : Pattern))]
      (generateProblemKey ⟨"sat", 11, some 11, []⟩) = none := by
    decide
  have hfresh : (extractPatterns (fun _ => none) (List.replicate 11 []) [[some 0]]
      [(generateProblemKey ⟨"sat", 10, some 11, []⟩, (⟨[(0, 1)], [some 1], []⟩ : Pattern))]
      ⟨"sat", 11, some 11, []⟩).1 = ⟨[], [], [⟨[], some 0⟩]⟩ := by
    unfold extractPatterns
    simp only [hmiss, hcorr, List.mergeSort_nil, List.take_nil, List.map_nil, List.map_cons]
    rfl
  refine ⟨by decide, by norm_num, hmiss, hfresh, ?_⟩
  rw [hfresh]
  intro hcontra
  exact absurd (congrArg Pattern.primaryDimensions hcontra) (by decide)
